import Mathlib

/-!
Shallow embedding of the extraction pipeline of the baptism-certificate
inference service (src/inference-service/src/: pipeline.py, face.py,
paper.py, ocr.py, app.py, upload_image.py, storage.py).

Modelling conventions:
* Local files are an association list from path strings to byte strings
  (`FS`); `cv2.imread` of a missing or undecodable file yields `none`.
* External model capabilities (InsightFace detection, the affine rotation
  raster, the colour-mask contour extraction, PaddleOCR, the Qwen LLM,
  sha256, uuid4) are fields of an `Env` record: they are black boxes in the
  source as well, consumed through narrow contracts.
* Python floats that only feed comparisons and truncations are embedded as
  rationals; `int(x)` is truncation toward zero; `round` is
  round-half-to-even, as in Python 3.
* Raised exceptions are `Except.error`; FastAPI `HTTPException(c, d)` is an
  error value `(c, d)`.
-/

namespace BaptismCert

/-! ### Local filesystem model -/

abbrev Bytes := String

abbrev FS := List (String × Bytes)

def fsRead : FS → String → Option Bytes
  | [], _ => none
  | (q, b) :: rest, p => if q = p then some b else fsRead rest p

def fsErase : FS → String → FS
  | [], _ => []
  | (q, b) :: rest, p => if q = p then fsErase rest p else (q, b) :: fsErase rest p

def fsWrite (fs : FS) (p : String) (b : Bytes) : FS :=
  (p, b) :: fsErase fs p

def fsExists (fs : FS) (p : String) : Bool :=
  (fsRead fs p).isSome

/-- Model of `os.remove`: raises `FileNotFoundError` when the path does not exist. -/
def osRemove (fs : FS) (p : String) : Except String FS :=
  if fsExists fs p then .ok (fsErase fs p) else .error "FileNotFoundError"

/-- The `finally` block of `pipeline` (pipeline.py lines 73-77):
`for f in paths: if os.path.exists(f): os.remove(f)`.
Returns the filesystem after the loop and the list of paths actually
removed, in order; an exception from `os.remove` aborts the loop. -/
def cleanup : FS → List String → Except String (FS × List String)
  | fs, [] => .ok (fs, [])
  | fs, p :: ps =>
    if fsExists fs p then
      match osRemove fs p with
      | .error e => .error e
      | .ok fs' =>
        match cleanup fs' ps with
        | .error e => .error e
        | .ok (fs'', rem) => .ok (fs'', p :: rem)
    else cleanup fs ps

/-! ### Per-run transient paths (pipeline.py lines 18-23) -/

def localInput (uid : String) : String := "/tmp/" ++ uid ++ ".jpg"

def localOutput (uid : String) : String := "/tmp/" ++ uid ++ "_headshot.jpg"

def localRembg (uid : String) : String := "/tmp/" ++ uid ++ "_headshot_rembg.png"

def localPaper (uid : String) : String := "/tmp/" ++ uid ++ "_paper.jpg"

def localPaths (uid : String) : List String :=
  [localInput uid, localOutput uid, localRembg uid, localPaper uid]

/-! ### Images, faces, contours -/

/-- An in-memory image: its shape plus an identity tag so that oracle
capabilities (detection, contour extraction, encoders) are well-defined
functions of the pixel content they abstract. -/
structure Img where
  h : Nat
  w : Nat
  iid : Nat
deriving DecidableEq, Repr

/-- One InsightFace detection: the raw float bounding box `(x1,y1,x2,y2)`
as rationals, together with the eye-to-eye angle in degrees that
`calculate_rotation_angle` (face.py lines 11-22) computes from the two eye
landmarks via `arctan2`.  The landmarks and the transcendental `arctan2`
are part of the detector capability, so the angle is carried with the
detection. -/
structure Face where
  x1 : ℚ
  y1 : ℚ
  x2 : ℚ
  y2 : ℚ
  angle : ℚ
deriving DecidableEq, Repr

/-- The `cv2.contourArea` and `cv2.boundingRect` data of one external contour
of the colour mask (paper.py lines 54-64): float area, integer bounding
rectangle `(rx, ry, rw, rh)`, plus an identity tag for the hull/crop
oracle. -/
structure Contour where
  area : ℚ
  rx : Nat
  ry : Nat
  rw : Nat
  rh : Nat
  cid : Nat
deriving DecidableEq, Repr

/-- The search region `crop_img` of paper.py: its shape, the row offset it
starts at inside the source image, and the identity of the source image. -/
structure Region where
  ch : Nat
  cw : Nat
  top : Nat
  iid : Nat
deriving DecidableEq, Repr

/-- Python `int(q)` on a real value: truncation toward zero. -/
def truncQ (q : ℚ) : Int := Int.tdiv q.num q.den

/-- Python 3 `round(q)` (round half to even), used only to formalise the
wording of the padding rule in the spec. -/
def pyRound (q : ℚ) : Int :=
  let f : Int := truncQ q
  let f : Int := if q < (f : ℚ) then f - 1 else f
  let r : ℚ := q - (f : ℚ)
  if r > 1/2 then f + 1
  else if r < 1/2 then f
  else if 2 ∣ f then f else f + 1

/-! ### External capabilities -/

/-- The capability environment: every black-box model, codec and random
source the service consumes.  `detect` stands for the single
`FaceAnalysis(name="buffalo_l")` model (initialised identically in face.py
and paper.py); `rotate` for `rotate_image` (face.py lines 25-43, a float
affine warp with a size-expanding canvas); `contours` for the whole
centre-colour sampling / absdiff / threshold / `findContours` chain of
paper.py lines 36-54 applied to a search region; `headshotBytes` and
`paperBytes` for `cv2.imwrite` encodings of the respective crops;
`rembg` for `rembg.remove`; `ocr` for `PaddleOCRVL().predict` plus block
concatenation; `llm` for tokenize/generate/decode of the Qwen model (its
argument is the full prompt, its value the full decoded output, prompt
included); `hashHex` for `hashlib.sha256(...).hexdigest()`; `uid` for the
`uuid.uuid4()` drawn by this run. -/
structure Env where
  uid : String
  gpuName : String
  storage : String → Option Bytes
  decodeImg : Bytes → Option Img
  detect : Img → List Face
  rotate : Img → ℚ → ℚ × ℚ → Img
  headshotBytes : Img → Int × Int × Int × Int → Bytes
  rembg : Bytes → Option Bytes
  contours : Region → List Contour
  paperBytes : Region → Contour → Bytes
  ocr : Bytes → String
  llm : String → String
  hashHex : Bytes → String

/-- Model of `cv2.imread(path)`: `None` when the file is missing or its bytes do
not decode as an image. -/
def imread (env : Env) (fs : FS) (p : String) : Option Img :=
  (fsRead fs p).bind env.decodeImg

/-! ### face.py -/

/-- The key of `max(faces, key=lambda f: (f.bbox[2]-f.bbox[0]) * (f.bbox[3]-f.bbox[1]))`
(face.py line 55). -/
def faceArea (f : Face) : ℚ := (f.x2 - f.x1) * (f.y2 - f.y1)

/-- One comparison step of Python `max(xs, key=key)`: the current best is
replaced only when the key of the challenger is strictly larger. -/
def pyStep {α : Type} (key : α → ℚ) (b g : α) : α :=
  if key b < key g then g else b

/-- Python `max(xs, key=key)`: scan left to right, replace the current
best only on a strictly larger key, so the first maximal element wins;
`none` on the empty list (where Python raises). -/
def pyMax {α : Type} (key : α → ℚ) : List α → Option α
  | [] => none
  | x :: xs => some (xs.foldl (pyStep key) x)

/-- The padding `pad = int(0.30 * d)` (face.py line 75) for the integer box height
`d = y2 - y1`.  The float product `0.30 * d` rounds to the double nearest
`3d/10`, and truncating it toward zero agrees with `tdiv (3*d) 10` for
every box height a real image can have (the nearest double to `0.3` is
below `0.3` by only `1.11e-17`, far less than the half-ulp of `0.3*d`, so
the product never crosses an integer boundary). -/
def padOf (d : Int) : Int := Int.tdiv (3 * d) 10

/-- face.py lines 74-80: pad the integer box by `pad` on all four sides
and clamp — lower-clamp `x1,y1` at `0`, upper-clamp `x2,y2` at the image
width resp. height. -/
def cropBounds (h w : Nat) (x1 y1 x2 y2 : Int) : Int × Int × Int × Int :=
  let pad := padOf (y2 - y1)
  (max 0 (x1 - pad), max 0 (y1 - pad), min (w : Int) (x2 + pad), min (h : Int) (y2 + pad))

/-- The bounding-box centre `((x1+x2)/2, (y1+y2)/2)` used as rotation
centre (face.py lines 63-64). -/
def faceCenter (f : Face) : ℚ × ℚ := ((f.x1 + f.x2) / 2, (f.y1 + f.y2) / 2)

/-- face.py lines 51-82, after a successful decode: detect, pick the
largest face, deskew when the eye angle exceeds 2 degrees (rotate about
the box centre, re-detect, re-select, fall back to the pre-rotation face
when re-detection finds nothing), then pad-and-clamp the truncated box.
Returns the image the crop is taken from and the crop bounds. -/
def extractHeadshotImg (env : Env) (img : Img) : Option (Img × (Int × Int × Int × Int)) :=
  match pyMax faceArea (env.detect img) with
  | none => none
  | some best =>
    let st : Img × Face :=
      if 2 < |best.angle| then
        let imgR := env.rotate img best.angle (faceCenter best)
        match pyMax faceArea (env.detect imgR) with
        | some b2 => (imgR, b2)
        | none => (imgR, best)
      else (img, best)
    let img' := st.1
    let b := st.2
    some (img', cropBounds img'.h img'.w (truncQ b.x1) (truncQ b.y1) (truncQ b.x2) (truncQ b.y2))

/-- Embedding of `extract_headshot(input_path, output_path)` (face.py lines 46-85):
decode failure or zero faces yield `False`; otherwise the crop is encoded
to `output_path` and the result is `True`.  No exception escapes. -/
def extract_headshot (env : Env) (fs : FS) (inp out : String) : Bool × FS :=
  match imread env fs inp with
  | none => (false, fs)
  | some img =>
    match extractHeadshotImg env img with
    | none => (false, fs)
    | some (img', c) => (true, fsWrite fs out (env.headshotBytes img' c))

/-! ### paper.py -/

/-- The function `contour_score` (paper.py lines 60-64): `cv2.contourArea(c)` minus ten
times the absolute horizontal offset of the bounding-rectangle centre
`x + w_rect//2` from the region centre `cw//2`. -/
def contourScore (cw : Nat) (c : Contour) : ℚ :=
  let centerDist : Int := |((c.rx + c.rw / 2 : Nat) : Int) - ((cw / 2 : Nat) : Int)|
  c.area - (centerDist * 10 : Int)

/-- The search region of `extract_paper_center_color` (paper.py lines
23-32): the full image when no face is detected, otherwise the strip from
just below the box of the first detected face (`crop_top = int(y2) + 0`) to the
bottom.  numpy slicing clamps an overlarge start to an empty slice. -/
def paperRegion (img : Img) (faces : List Face) : Region :=
  match faces with
  | [] => ⟨img.h, img.w, 0, img.iid⟩
  | f :: _ =>
    let t : Nat := min img.h (truncQ f.y2).toNat
    ⟨img.h - t, img.w, t, img.iid⟩

/-- Embedding of `extract_paper_center_color` (paper.py lines 9-74) for a decoded
image: build the search region, extract the colour-mask contours, return
`None` when there are none, otherwise the highest-scoring contour (the
convex hull, bounding rectangle and pixel crop of which are taken by the
`paperBytes` capability). -/
def extractPaperCenterColor (env : Env) (img : Img) : Option (Region × Contour) :=
  let region := paperRegion img (env.detect img)
  match pyMax (contourScore region.cw) (env.contours region) with
  | none => none
  | some best => some (region, best)

/-- Embedding of `extract_paper(input_path, output_path)` (paper.py lines 116-126).
NOTE: unlike face.py, there is no `img is None` guard, so when
`cv2.imread` yields `None` the very next line of
`extract_paper_center_color`, `h, w, _ = img.shape`, raises
`AttributeError` — embedded as an error value. -/
def extract_paper (env : Env) (fs : FS) (inp out : String) : Except String (Bool × FS) :=
  match imread env fs inp with
  | none => .error "AttributeError: NoneType has no attribute shape"
  | some img =>
    match extractPaperCenterColor env img with
    | none => .ok (false, fs)
    | some (region, c) => .ok (true, fsWrite fs out (env.paperBytes region c))

/-! ### ocr.py: OCR text and field normalisation -/

/-- The f-string prompt of `parse_ocr` (ocr.py lines 35-51) with the OCR
text interpolated.  The decoded model output contains this prompt as a
prefix (HF `generate` returns prompt plus continuation); note the prompt
itself contains no brace characters. -/
def promptOf (text : String) : String :=
  "\nYou are a data extraction system.\n\nExtract these fields from the OCR text:\n- name_cn\n- name_pinyin : 名字拼音，请合理参考中文名字。如果中文名字是孙建芬 格式应为 \"Sun JianFen\"。姓在前，名在后，如果名字是多字，每个字拼音的第一个字母大写。\n- birthday (YYYY-MM-DD)\n- baptism_date (YYYY-MM-DD)\n- phone : 连续10位数字\n- address : 请变为正确的地址格式\n- birth : \"来自省份\"\n\nOCR text:\n"
    ++ text
    ++ "\n\nReturn JSON only. Put null at appropriate places.\n"

/-- The opening brace character. -/
def braceOpen : Char := Char.ofNat 123

/-- The closing brace character. -/
def braceClose : Char := Char.ofNat 125

def idxOf (c : Char) : List Char → Option Nat
  | [] => none
  | d :: rest => if d = c then some 0 else (idxOf c rest).map (· + 1)

def lastIdxOf (c : Char) (l : List Char) : Option Nat :=
  (idxOf c l.reverse).map (fun k => l.length - 1 - k)

/-- Model of `re.search(r"\x7b.*\x7d", result, re.S)`: the leftmost match starts at
the first opening brace and, being greedy with DOTALL, ends at the last
closing brace of the whole text; there is a match exactly when some
closing brace occurs after the first opening brace. -/
def braceSpanL (l : List Char) : Option (List Char) :=
  match idxOf braceOpen l, lastIdxOf braceClose l with
  | some i, some j => if i < j then some ((l.drop i).take (j - i + 1)) else none
  | _, _ => none

def braceSpanStr (s : String) : Option String :=
  (braceSpanL s.data).map (fun l => ⟨l⟩)

/-- JSON values as `json.loads` builds them; number lexemes are kept as
written (their float value plays no role here).  A Python dict keeps the
last duplicate key; we keep the member list as parsed. -/
inductive Json where
  | null
  | bool (b : Bool)
  | num (lit : String)
  | str (s : String)
  | arr (xs : List Json)
  | obj (kvs : List (String × Json))
deriving Repr

/-- JSON whitespace as accepted by `json.loads`. -/
def isJsonWs (c : Char) : Bool :=
  c = ' ' || c = '\t' || c = '\n' || c = '\r'

def skipWs : List Char → List Char
  | [] => []
  | c :: rest => if isJsonWs c then skipWs rest else c :: rest

/-- Consume an exact literal. -/
def dropLit : List Char → List Char → Option (List Char)
  | [], l => some l
  | _ :: _, [] => none
  | c :: cs, d :: ds => if c = d then dropLit cs ds else none

def hexVal (c : Char) : Option Nat :=
  if c.isDigit then some (c.toNat - 48)
  else if 'a' ≤ c && c ≤ 'f' then some (c.toNat - 87)
  else if 'A' ≤ c && c ≤ 'F' then some (c.toNat - 55)
  else none

/-- JSON string body after the opening quote, in strict mode: raw control
characters are rejected, the standard escapes are decoded (`\\uXXXX` via
`Char.ofNat`; surrogate-pair recombination is not modelled). -/
def parseJStr : Nat → List Char → Option (String × List Char)
  | 0, _ => none
  | _ + 1, [] => none
  | fuel + 1, c :: rest =>
    if c = '"' then some ("", rest)
    else if c = '\\' then
      match rest with
      | [] => none
      | e :: rest2 =>
        let cont := fun (ch : Char) (rs : List Char) =>
          (parseJStr fuel rs).map (fun p => (⟨ch :: p.1.data⟩, p.2))
        if e = '"' then cont '"' rest2
        else if e = '\\' then cont '\\' rest2
        else if e = '/' then cont '/' rest2
        else if e = 'b' then cont (Char.ofNat 8) rest2
        else if e = 'f' then cont (Char.ofNat 12) rest2
        else if e = 'n' then cont '\n' rest2
        else if e = 'r' then cont '\r' rest2
        else if e = 't' then cont '\t' rest2
        else if e = 'u' then
          match rest2 with
          | h1 :: h2 :: h3 :: h4 :: rest3 =>
            match hexVal h1, hexVal h2, hexVal h3, hexVal h4 with
            | some a, some b, some cc, some d =>
              cont (Char.ofNat (((a * 16 + b) * 16 + cc) * 16 + d)) rest3
            | _, _, _, _ => none
          | _ => none
        else none
    else if c.toNat < 32 then none
    else (parseJStr fuel rest).map (fun p => (⟨c :: p.1.data⟩, p.2))

def digitSpan (l : List Char) : List Char × List Char :=
  (l.takeWhile Char.isDigit, l.dropWhile Char.isDigit)

/-- JSON number grammar: `int` part (`0` or a nonzero-led digit run). -/
def parseIntPart : List Char → Option (List Char × List Char)
  | [] => none
  | c :: rest =>
    if c = '0' then some ([c], rest)
    else if c.isDigit then
      let (ds, r) := digitSpan rest
      some (c :: ds, r)
    else none

def parseFracPart : List Char → Option (List Char × List Char)
  | '.' :: rest =>
    match digitSpan rest with
    | ([], _) => none
    | (ds, r) => some ('.' :: ds, r)
  | l => some ([], l)

def parseExpPart : List Char → Option (List Char × List Char)
  | c :: rest =>
    if c = 'e' || c = 'E' then
      let (sgn, r1) : List Char × List Char :=
        match rest with
        | s :: r => if s = '+' || s = '-' then ([s], r) else ([], s :: r)
        | [] => ([], [])
      match digitSpan r1 with
      | ([], _) => none
      | (ds, r2) => some (c :: (sgn ++ ds), r2)
    else some ([], c :: rest)
  | [] => some ([], [])

def parseNum (l : List Char) : Option (List Char × List Char) := do
  let (sgn, r0) : List Char × List Char :=
    match l with
    | '-' :: r => (['-'], r)
    | _ => ([], l)
  let (ip, r1) ← parseIntPart r0
  let (fp, r2) ← parseFracPart r1
  let (ep, r3) ← parseExpPart r2
  pure (sgn ++ ip ++ fp ++ ep, r3)

mutual

/-- One JSON value, as `json.loads` accepts it (including the non-standard
`NaN` / `Infinity` literals Python allows by default). -/
def parseVal : Nat → List Char → Option (Json × List Char)
  | 0, _ => none
  | fuel + 1, l =>
    let l := skipWs l
    if let some r := dropLit "null".data l then some (.null, r)
    else if let some r := dropLit "true".data l then some (.bool true, r)
    else if let some r := dropLit "false".data l then some (.bool false, r)
    else if let some r := dropLit "NaN".data l then some (.num "NaN", r)
    else if let some r := dropLit "Infinity".data l then some (.num "Infinity", r)
    else if let some r := dropLit "-Infinity".data l then some (.num "-Infinity", r)
    else
      match l with
      | '"' :: rest => (parseJStr fuel rest).map (fun p => (.str p.1, p.2))
      | '[' :: rest =>
        let rest' := skipWs rest
        (match rest' with
         | ']' :: r => some (.arr [], r)
         | _ => (parseElems fuel rest').map (fun p => (.arr p.1, p.2)))
      | c :: rest =>
        if c = braceOpen then
          let rest' := skipWs rest
          (match rest' with
           | d :: r =>
             if d = braceClose then some (.obj [], r)
             else (parseMembers fuel rest').map (fun p => (.obj p.1, p.2))
           | [] => (parseMembers fuel rest').map (fun p => (.obj p.1, p.2)))
        else (parseNum (c :: rest)).map (fun p => (.num ⟨p.1⟩, p.2))
      | [] => none

/-- Comma-separated array elements up to the closing bracket. -/
def parseElems : Nat → List Char → Option (List Json × List Char)
  | 0, _ => none
  | fuel + 1, l => do
    let (v, r1) ← parseVal fuel l
    match skipWs r1 with
    | ',' :: r2 => (parseElems fuel r2).map (fun p => (v :: p.1, p.2))
    | ']' :: r2 => some ([v], r2)
    | _ => none

/-- Comma-separated `"key": value` members up to the closing brace. -/
def parseMembers : Nat → List Char → Option (List (String × Json) × List Char)
  | 0, _ => none
  | fuel + 1, l =>
    match l with
    | '"' :: rest => do
      let (k, r1) ← parseJStr fuel rest
      match skipWs r1 with
      | ':' :: r2 => do
        let (v, r3) ← parseVal fuel r2
        match skipWs r3 with
        | ',' :: r4 => (parseMembers fuel (skipWs r4)).map (fun p => ((k, v) :: p.1, p.2))
        | d :: r4 => if d = braceClose then some ([(k, v)], r4) else none
        | [] => none
      | _ => none
    | _ => none

end

/-- Model of `json.loads`: one complete JSON document, nothing but whitespace after
it; `none` embeds a raised `json.decoder.JSONDecodeError`.  The fuel
strictly bounds the recursion and exceeds the number of parser steps any
input of this length can take (each step past a constant consumes input). -/
def jsonLoads (s : String) : Option Json :=
  match parseVal (8 * s.length + 64) s.data with
  | some (v, r) => if skipWs r = [] then some v else none
  | none => none

/-- The value `parse_ocr` returns: the parsed JSON object, or the raw
decoded model text as degraded fallback when no brace span exists. -/
inductive ParseResult where
  | structured (j : Json)
  | raw (s : String)
deriving Repr

/-- Embedding of `parse_ocr(text)` (ocr.py lines 34-70): build the prompt, run the LLM
capability (decoded output includes the prompt), search for the first
brace-delimited span; parse it with `json.loads` when present —
`json.loads` is NOT wrapped in try/except, so a malformed span raises —
otherwise return the raw decoded text. -/
def parse_ocr (llm : String → String) (text : String) : Except String ParseResult :=
  let result := llm (promptOf text)
  match braceSpanStr result with
  | some span =>
    match jsonLoads span with
    | some j => .ok (.structured j)
    | none => .error "json.decoder.JSONDecodeError"
  | none => .ok (.raw result)

/-- Embedding of `extract_ocr(file)` (ocr.py lines 13-20): `PaddleOCRVL().predict` on a
path that does not exist raises; on an existing file the concatenated
block text is the output of the OCR capability. -/
def extract_ocr (env : Env) (fs : FS) (p : String) : Except String String :=
  match fsRead fs p with
  | none => .error "FileNotFoundError: paper image missing"
  | some b => .ok (env.ocr b)

/-! ### facerembg.py -/

/-- Embedding of `remove_background(input_path, output_path)` (facerembg.py lines
8-34): the whole body is inside try/except, so a missing input file
(`open` raises) or a failing `remove` both yield `False`; on success the
output bytes are written and the result is `True`. -/
def remove_background (env : Env) (fs : FS) (inp out : String) : Bool × FS :=
  match fsRead fs inp with
  | none => (false, fs)
  | some b =>
    match env.rembg b with
    | none => (false, fs)
    | some ob => (true, fsWrite fs out ob)

/-! ### pipeline.py -/

/-- The dictionary `pipeline` returns on success (pipeline.py lines
59-68).  `timing` holds the stage names marked by the `Timer`, in
insertion order; the elapsed seconds are wall-clock and are not modelled. -/
structure PipeResult where
  status : String
  gpu : String
  filename : String
  headshot_result : Bool
  paper_result : Bool
  extract_ocr_result : String
  parse_ocr_result : ParseResult
  timing : List String
deriving Repr

/-- Run-local mutable state threaded through the body of `pipeline`: the
local filesystem, the storage uploads performed so far (remote paths, in
order) and the `Timer` marks so far (names, in order). -/
structure St where
  fs : FS
  uploads : List String
  marks : List String
deriving Repr

def mark (s : St) (n : String) : St := { s with marks := s.marks ++ [n] }

def upload (s : St) (remote : String) : St := { s with uploads := s.uploads ++ [remote] }

/-- The `try` body of `pipeline(filename)` (pipeline.py lines 27-68),
starting from an empty run-local filesystem: download, headshot stage
(+ conditional upload), background removal (+ conditional upload), paper
stage (+ conditional upload), then — unconditionally — OCR on the paper
path and normalisation of the lowercased OCR text.  Errors carry the
state accrued when they were raised. -/
def pipelineBody (env : Env) (fname : String) : Except String PipeResult × St :=
  match env.storage ("raw_images/" ++ fname) with
  | none => (.error "ClientError: NoSuchKey", ⟨[], [], []⟩)
  | some raw =>
    let s := mark ⟨fsWrite [] (localInput env.uid) raw, [], []⟩ "download"
    let hsr := extract_headshot env s.fs (localInput env.uid) (localOutput env.uid)
    let s := mark { s with fs := hsr.2 } "headshot_inference"
    let s := if hsr.1 then mark (upload s ("headshots/" ++ fname)) "upload_headshot" else s
    let rbr := remove_background env s.fs (localOutput env.uid) (localRembg env.uid)
    let s := mark { s with fs := rbr.2 } "remove_background"
    let s := if rbr.1 then mark (upload s ("headshots_rembg/" ++ fname)) "upload_headshot_rembg" else s
    match extract_paper env s.fs (localInput env.uid) (localPaper env.uid) with
    | .error e => (.error e, s)
    | .ok ppr =>
      let s := mark { s with fs := ppr.2 } "paper_inference"
      let s := if ppr.1 then mark (upload s ("papers/" ++ fname)) "upload_paper" else s
      match extract_ocr env s.fs (localPaper env.uid) with
      | .error e => (.error e, s)
      | .ok txt =>
        let s := mark s "extract_ocr_inference"
        match parse_ocr env.llm txt.toLower with
        | .error e => (.error e, s)
        | .ok parsed =>
          let s := mark s "parse_ocr_inference"
          (.ok ⟨"ok", env.gpuName, fname, hsr.1, ppr.1, txt, parsed, s.marks⟩, s)

/-- Everything observable about one `pipeline` invocation. -/
structure RunOut where
  result : Except (Nat × String) PipeResult
  uploads : List String
  marks : List String
  fsTeardown : FS
  fsFinal : FS
  removed : List String
  cleanupOk : Bool
deriving Repr

/-- Embedding of `pipeline(filename)` (pipeline.py lines 15-77): run the body; any
exception is re-raised as `HTTPException(500, str(e))`; the `finally`
block then deletes whichever of the four run-local paths exist. -/
def attachCleanup (r : Except String PipeResult) (s : St) (ps : List String) : RunOut :=
  match cleanup s.fs ps with
  | .ok (fs', rem) =>
    ⟨r.mapError (fun e => ((500 : Nat), e)), s.uploads, s.marks, s.fs, fs', rem, true⟩
  | .error _ =>
    ⟨r.mapError (fun e => ((500 : Nat), e)), s.uploads, s.marks, s.fs, s.fs, [], false⟩

def pipelineRun (env : Env) (fname : String) : RunOut :=
  attachCleanup (pipelineBody env fname).1 (pipelineBody env fname).2 (localPaths env.uid)

/-! ### app.py and upload_image.py -/

/-- Python `str.endswith(suffix)`. -/
def endswith (s suf : String) : Bool :=
  List.isSuffixOf suf.data s.data

/-- The `/extract` endpoint (app.py lines 46-52): reject filenames not
ending in `.jpg`, `.png` or `.jpeg` with a 400 before running the
pipeline; the second component records the pipeline invocation when one
happened. -/
def extractEndpoint (env : Env) (fname : String) :
    Except (Nat × String) PipeResult × Option RunOut :=
  if endswith fname ".jpg" || endswith fname ".png" || endswith fname ".jpeg" then
    let r := pipelineRun env fname
    (r.result, some r)
  else
    (.error ((400 : Nat), "Invalid image format"), none)

/-- The set `ALLOWED_EXT` (upload_image.py line 10). -/
def ALLOWED_EXT : List String := [".jpg", ".jpeg", ".png", ".webp"]

/-- Model of `os.path.splitext(name)[1]` for a bare filename: the part from the
last dot, except that a basename consisting only of leading dots has no
extension. -/
def splitextExt (name : String) : String :=
  match lastIdxOf '.' name.data with
  | none => ""
  | some i =>
    if (name.data.take i).all (· = '.') then ""
    else ⟨name.data.drop i⟩

/-- Python `str.lower()` on the ASCII extensions involved here. -/
def pyLower (s : String) : String := s.toLower

/-- Embedding of `upload_image_handler` (upload_image.py lines 36-60) composed with
`save_upload_to_tmp`: reject extensions outside `ALLOWED_EXT` (the
`ValueError` becomes an HTTP 400), otherwise the stored job key is the
sha256 hex digest of the content plus the lowercased original extension. -/
def upload_image_handler (env : Env) (origName : String) (content : Bytes) :
    Except (Nat × String) String :=
  let ext := pyLower (splitextExt origName)
  if ext ∈ ALLOWED_EXT then
    .ok (env.hashHex content ++ ext)
  else
    .error ((400 : Nat), "Unsupported file format")

/-! ### Spec-side formulations of the padding rule (claim C5) -/

/-- The crop-bounds formula exactly as the claim words it:
`pad = round(0.30*(y2-y1))` (Python `round`, half to even) and every
coordinate clamped into the full `0..w` resp. `0..h` range. -/
def specCropClaim (h w : Nat) (x1 y1 x2 y2 : Int) : Int × Int × Int × Int :=
  let pad := pyRound ((3 : ℚ) / 10 * ((y2 : ℚ) - (y1 : ℚ)))
  (max 0 (min (w : Int) (x1 - pad)), max 0 (min (h : Int) (y1 - pad)),
   max 0 (min (w : Int) (x2 + pad)), max 0 (min (h : Int) (y2 + pad)))

/-- The crop-bounds formula with the padding amended to what the code
computes: `pad = int(0.30*(y2-y1))`, truncation instead of rounding. -/
def specCropAmended (h w : Nat) (x1 y1 x2 y2 : Int) : Int × Int × Int × Int :=
  let pad := truncQ ((3 : ℚ) / 10 * ((y2 : ℚ) - (y1 : ℚ)))
  (max 0 (min (w : Int) (x1 - pad)), max 0 (min (h : Int) (y1 - pad)),
   max 0 (min (w : Int) (x2 + pad)), max 0 (min (h : Int) (y2 + pad)))

/-! ### Concrete capability environments for witnesses and counterexamples -/

def imgA : Img := ⟨100, 80, 0⟩

/-- A face with box `(10,10,20,15)` and a level gaze (eye angle `0`). -/
def faceA : Face := ⟨10, 10, 20, 15, 0⟩

/-- A smaller face than `faceA`. -/
def faceB : Face := ⟨30, 30, 33, 32, 0⟩

/-- One mask contour: area 100, bounding rectangle at `(0,0)` size `10×10`. -/
def contourA : Contour := ⟨100, 0, 0, 10, 10, 0⟩

/-- A neutral environment: empty storage, nothing decodes, no detections,
no contours; individual scenarios override the relevant capabilities. -/
def baseEnv : Env where
  uid := "u"
  gpuName := "cpu"
  storage := fun _ => none
  decodeImg := fun _ => none
  detect := fun _ => []
  rotate := fun i _ _ => i
  headshotBytes := fun _ _ => "HSBYTES"
  rembg := fun _ => none
  contours := fun _ => []
  paperBytes := fun _ _ => "PPBYTES"
  ocr := fun _ => "OCRTXT"
  llm := fun s => s
  hashHex := fun _ => "abc123"

/-- Scenario for C1: the raw image downloads and decodes, no face and no
mask contour is found, so `paper_result` is `False` and no paper file is
written. -/
def envC1 : Env :=
  { baseEnv with
    storage := fun p => if p = "raw_images/a.jpg" then some "RAW" else none
    decodeImg := fun b => if b = "RAW" then some imgA else none }

/-- Scenario for C3: the paper is found and OCR succeeds, but the decoded
LLM output carries a brace span that is not valid JSON. -/
def envC3 : Env :=
  { envC1 with
    contours := fun _ => [contourA]
    llm := fun _ => "ocr{x}" }

/-- Scenario for C4: the input file exists but its bytes do not decode. -/
def envC4 : Env := baseEnv

def fsC4 : FS := [("/tmp/in.jpg", "JUNK")]

/-- Scenario for C5/C6/C7 witnesses: one or two clean detections. -/
def envC5 : Env :=
  { baseEnv with detect := fun _ => [faceA] }

def envC7 : Env :=
  { baseEnv with detect := fun _ => [faceA, faceB] }

/-- Scenario for C8: a headshot is found and uploaded, then the colour
mask of the paper region has no contours. -/
def envC8 : Env :=
  { envC1 with detect := fun _ => [faceA] }

/-- Scenario for the C9 witness: the decoded LLM output has no brace span. -/
def envC9llm : String → String := fun _ => "name none; no json here"

/-! ## Helper lemmas: the filesystem and teardown -/

theorem fsRead_fsErase (fs : FS) (p q : String) :
    fsRead (fsErase fs p) q = if q = p then none else fsRead fs q := by
  induction fs with
  | nil => simp [fsErase, fsRead]
  | cons e rest ih =>
    obtain ⟨a, b⟩ := e
    by_cases hap : a = p <;> by_cases haq : a = q <;>
      simp_all [fsErase, fsRead]

theorem fsRead_fsWrite_self (fs : FS) (p : String) (b : Bytes) :
    fsRead (fsWrite fs p b) p = some b := by
  simp [fsWrite, fsRead]

theorem fsRead_fsWrite_ne (fs : FS) (p q : String) (b : Bytes) (h : q ≠ p) :
    fsRead (fsWrite fs p b) q = fsRead fs q := by
  simp only [fsWrite, fsRead]
  rw [if_neg (fun hpq => h hpq.symm), fsRead_fsErase, if_neg h]

theorem fsExists_fsErase (fs : FS) (p q : String) (h : q ≠ p) :
    fsExists (fsErase fs p) q = fsExists fs q := by
  simp [fsExists, fsRead_fsErase, h]

/-- The teardown loop never throws, removes exactly the listed paths that
existed when it started (each once, the list being duplicate-free), and
leaves none of the listed paths on the filesystem. -/
theorem cleanup_spec (ps : List String) (fs : FS) (hnd : ps.Nodup) :
    ∃ fs' rem, cleanup fs ps = .ok (fs', rem)
      ∧ rem = ps.filter (fun p => fsExists fs p)
      ∧ ∀ q, fsRead fs' q = if q ∈ ps then none else fsRead fs q := by
  induction ps generalizing fs with
  | nil => exact ⟨fs, [], rfl, rfl, by simp⟩
  | cons p ps ih =>
    have hp : p ∉ ps := (List.nodup_cons.mp hnd).1
    have hnd' : ps.Nodup := (List.nodup_cons.mp hnd).2
    by_cases hex : fsExists fs p
    · obtain ⟨fs', rem, hok, hrem, hread⟩ := ih (fsErase fs p) hnd'
      refine ⟨fs', p :: rem, ?_, ?_, ?_⟩
      · simp only [cleanup, osRemove, hex, if_pos, hok]
      · have hcongr : ps.filter (fun q => fsExists (fsErase fs p) q)
            = ps.filter (fun q => fsExists fs q) := by
          apply List.filter_congr
          intro q hq
          exact fsExists_fsErase fs p q (fun hqp => hp (hqp ▸ hq))
        simp [hrem, hcongr, List.filter_cons, hex]
      · intro q
        rw [hread q, fsRead_fsErase]
        by_cases hqp : q = p <;> by_cases hqps : q ∈ ps <;>
          simp_all [List.mem_cons]
    · obtain ⟨fs', rem, hok, hrem, hread⟩ := ih fs hnd'
      refine ⟨fs', rem, ?_, ?_, ?_⟩
      · simp [cleanup, hex, hok]
      · simp [hrem, List.filter_cons, hex]
      · intro q
        rw [hread q]
        by_cases hqp : q = p
        · subst hqp
          have hn : fsRead fs q = none := by
            cases hfs : fsRead fs q with
            | none => rfl
            | some b => exact absurd (by simp [fsExists, hfs]) hex
          simp [hp, hn]
        · by_cases hqps : q ∈ ps <;> simp_all [List.mem_cons]

theorem length_tmp_path (uid s : String) :
    ("/tmp/" ++ uid ++ s).length = 5 + uid.length + s.length := by
  have h5 : ("/tmp/" : String).length = 5 := rfl
  simp [String.length_append, h5]

theorem tmp_path_ne (uid s t : String) (h : s.length ≠ t.length) :
    "/tmp/" ++ uid ++ s ≠ "/tmp/" ++ uid ++ t := by
  intro he
  apply h
  have hl := congrArg String.length he
  rw [length_tmp_path, length_tmp_path] at hl
  omega

/-- The four transient paths of one run are pairwise distinct. -/
theorem localPaths_nodup (uid : String) : (localPaths uid).Nodup := by
  have h12 := tmp_path_ne uid ".jpg" "_headshot.jpg" (by decide)
  have h13 := tmp_path_ne uid ".jpg" "_headshot_rembg.png" (by decide)
  have h14 := tmp_path_ne uid ".jpg" "_paper.jpg" (by decide)
  have h23 := tmp_path_ne uid "_headshot.jpg" "_headshot_rembg.png" (by decide)
  have h24 := tmp_path_ne uid "_headshot.jpg" "_paper.jpg" (by decide)
  have h34 := tmp_path_ne uid "_headshot_rembg.png" "_paper.jpg" (by decide)
  simp [localPaths, localInput, localOutput, localRembg, localPaper,
    List.nodup_cons, h12, h13, h14, h23, h24, h34]

/-- C2: on every exit path of `pipeline` — ok result or raised error —
teardown succeeds without throwing, the removed list is duplicate-free
(each path deleted at most once), a transient path is removed exactly when
it existed at teardown, nothing else is removed, and afterwards none of
the four run-local paths exists. -/
theorem C2_transient_files_deleted_exactly_once (env : Env) (fname : String) :
    (pipelineRun env fname).cleanupOk = true
    ∧ (pipelineRun env fname).removed.Nodup
    ∧ (∀ p ∈ localPaths env.uid,
        (p ∈ (pipelineRun env fname).removed ↔ fsExists (pipelineRun env fname).fsTeardown p = true))
    ∧ (∀ p ∈ (pipelineRun env fname).removed, p ∈ localPaths env.uid)
    ∧ (∀ p ∈ localPaths env.uid, fsRead (pipelineRun env fname).fsFinal p = none) := by
  obtain ⟨fs', rem, hok, hrem, hread⟩ :=
    cleanup_spec (localPaths env.uid) (pipelineBody env fname).2.fs (localPaths_nodup env.uid)
  have hrun : pipelineRun env fname
      = ⟨(pipelineBody env fname).1.mapError (fun e => ((500 : Nat), e)),
         (pipelineBody env fname).2.uploads, (pipelineBody env fname).2.marks,
         (pipelineBody env fname).2.fs, fs', rem, true⟩ := by
    unfold pipelineRun attachCleanup
    rw [hok]
  rw [hrun]
  refine ⟨rfl, ?_, ?_, ?_, ?_⟩
  · exact hrem ▸ (localPaths_nodup env.uid).filter _
  · intro p hp
    simp [hrem, List.mem_filter, hp]
  · intro p hp
    rw [hrem] at hp
    exact (List.mem_filter.mp hp).1
  · intro p hp
    rw [hread p, if_pos hp]

/-! ## Helper lemmas: Python `max` semantics -/

theorem key_le_foldl {α : Type} (key : α → ℚ) (xs : List α) (x : α) :
    key x ≤ key (xs.foldl (pyStep key) x) := by
  induction xs generalizing x with
  | nil => exact le_refl _
  | cons g gs ih =>
    simp only [List.foldl]
    unfold pyStep
    by_cases h : key x < key g
    · rw [if_pos h]
      exact le_of_lt (lt_of_lt_of_le h (ih g))
    · rw [if_neg h]
      exact ih x

/-- Python `max` returns the first maximal element: the list splits into a
strictly smaller prefix, the winner, and a no-larger suffix. -/
theorem pyMax_decomp {α : Type} (key : α → ℚ) (xs : List α) (x : α) :
    ∃ l₁ l₂, x :: xs = l₁ ++ (xs.foldl (pyStep key) x) :: l₂
      ∧ (∀ g ∈ l₁, key g < key (xs.foldl (pyStep key) x))
      ∧ (∀ g ∈ l₂, key g ≤ key (xs.foldl (pyStep key) x)) := by
  induction xs generalizing x with
  | nil => exact ⟨[], [], rfl, by simp, by simp⟩
  | cons g gs ih =>
    simp only [List.foldl]
    by_cases h : key x < key g
    · have hstep : pyStep key x g = g := if_pos h
      rw [hstep]
      obtain ⟨l₁, l₂, heq, hlt, hle⟩ := ih g
      refine ⟨x :: l₁, l₂, ?_, ?_, hle⟩
      · rw [List.cons_append, ← heq]
      · intro a ha
        rcases List.mem_cons.mp ha with rfl | ha'
        · exact lt_of_lt_of_le h (key_le_foldl key gs g)
        · exact hlt a ha'
    · have hstep : pyStep key x g = x := if_neg h
      rw [hstep]
      obtain ⟨l₁, l₂, heq, hlt, hle⟩ := ih x
      have hgx : key g ≤ key x := le_of_not_lt h
      cases l₁ with
      | nil =>
        simp only [List.nil_append] at heq
        have hm : x = gs.foldl (pyStep key) x := ((List.cons.injEq _ _ _ _).mp heq).1
        have hl2 : gs = l₂ := ((List.cons.injEq _ _ _ _).mp heq).2
        refine ⟨[], g :: gs, ?_, by simp, ?_⟩
        · rw [List.nil_append, ← hm]
        · intro b hb
          rcases List.mem_cons.mp hb with rfl | hb'
          · rw [← hm]
            exact hgx
          · exact hle b (hl2 ▸ hb')
      | cons a l₁' =>
        simp only [List.cons_append] at heq
        have hax : x = a := ((List.cons.injEq _ _ _ _).mp heq).1
        subst hax
        have hgs : gs = l₁' ++ (gs.foldl (pyStep key) x) :: l₂ :=
          ((List.cons.injEq _ _ _ _).mp heq).2
        have hxm : key x < key (gs.foldl (pyStep key) x) :=
          hlt x (List.mem_cons_self _ _)
        refine ⟨x :: g :: l₁', l₂, ?_, ?_, hle⟩
        · rw [List.cons_append, List.cons_append, ← hgs]
        · intro b hb
          rcases List.mem_cons.mp hb with rfl | hb'
          · exact hxm
          · rcases List.mem_cons.mp hb' with rfl | hb''
            · exact lt_of_le_of_lt hgx hxm
            · exact hlt b (List.mem_cons_of_mem _ hb'')

/-- Any element of a list decomposed around a first-maximal winner has key
at most that of the winner. -/
theorem decomp_max {α : Type} (key : α → ℚ) {l l₁ l₂ : List α} {m : α}
    (heq : l = l₁ ++ m :: l₂)
    (hlt : ∀ g ∈ l₁, key g < key m) (hle : ∀ g ∈ l₂, key g ≤ key m) :
    ∀ g ∈ l, key g ≤ key m := by
  subst heq
  intro g hg
  rcases List.mem_append.mp hg with h | h
  · exact le_of_lt (hlt g h)
  · rcases List.mem_cons.mp h with rfl | h'
    · exact le_refl _
    · exact hle g h'

/-! ## Helper lemmas: truncation and padding -/

theorem truncQ_eq_floor {q : ℚ} (h : 0 ≤ q) : truncQ q = ⌊q⌋ := by
  unfold truncQ
  rw [Rat.floor_def]
  exact Int.tdiv_eq_ediv (Rat.num_nonneg.mpr h) (Int.natCast_nonneg _)

theorem truncQ_mul_three_tenths {d : Int} (hd : 0 ≤ d) :
    truncQ ((3 : ℚ) / 10 * (d : ℚ)) = padOf d := by
  have hq : ((3 : ℚ) / 10 * (d : ℚ)) = ((3 * d : ℤ) : ℚ) / ((10 : ℕ) : ℚ) := by
    push_cast
    ring
  have hnn : (0 : ℚ) ≤ ((3 * d : ℤ) : ℚ) / ((10 : ℕ) : ℚ) := by
    apply div_nonneg
    · exact_mod_cast mul_nonneg (by norm_num) hd
    · norm_num
  rw [hq, truncQ_eq_floor hnn, Rat.floor_intCast_div_natCast]
  unfold padOf
  rw [Int.tdiv_eq_ediv (by omega) (by norm_num)]
  norm_num

theorem padOf_nonneg {d : Int} (hd : 0 ≤ d) : 0 ≤ padOf d := by
  unfold padOf
  rw [Int.tdiv_eq_ediv (by omega) (by norm_num)]
  exact Int.ediv_nonneg (by omega) (by norm_num)

/-! ## Claim C1 -/

/-- C1: the claim says that when the paper stage reports not-found the OCR
and normalisation stages are skipped and the run completes with
`status=ok`.  The code instead calls `extract_ocr` unconditionally on the
never-written paper path: in a run where download and decode succeed but
no face and no mask contour is found, the run ends in an HTTP 500 error
(the file read of the OCR engine raises), with timing marks recorded up to the
paper stage and none for OCR or normalisation — so the run does not
complete with `status=ok`. -/
theorem C1_paper_not_found_aborts_run :
    (pipelineRun envC1 "a.jpg").result
      = .error (500, "FileNotFoundError: paper image missing")
    ∧ (pipelineRun envC1 "a.jpg").marks
      = ["download", "headshot_inference", "remove_background", "paper_inference"] :=
  ⟨rfl, rfl⟩

/-! ## Claim C3 -/

/-- C3, counterexample: in a full run that reaches normalisation with a
decoded LLM output holding the malformed brace span `\x7bx\x7d`, the run
aborts with an HTTP 500 JSON-decode error — the normalizer does not
return a degraded result. -/
theorem C3_counterexample_malformed_span :
    (pipelineRun envC3 "a.jpg").result = .error (500, "json.decoder.JSONDecodeError") :=
  rfl

/-- C3, amended: malformed JSON inside the matched brace span makes
`parse_ocr` raise `json.decoder.JSONDecodeError` (there is no try/except
around `json.loads`), and any exception raised in the pipeline body
surfaces as an HTTP 500 failure of the whole run; only the absence of a
brace span yields the degraded raw-text result. -/
theorem C3_malformed_json_aborts (llm : String → String) (text span : String)
    (hspan : braceSpanStr (llm (promptOf text)) = some span)
    (hbad : jsonLoads span = none) :
    parse_ocr llm text = .error "json.decoder.JSONDecodeError"
    ∧ ∀ (env : Env) (fname : String) (e : String),
        (pipelineBody env fname).1 = .error e →
        (pipelineRun env fname).result = .error (500, e) := by
  constructor
  · simp [parse_ocr, hspan, hbad]
  · intro env fname e he
    obtain ⟨fs', rem, hok, _, _⟩ :=
      cleanup_spec (localPaths env.uid) (pipelineBody env fname).2.fs (localPaths_nodup env.uid)
    unfold pipelineRun attachCleanup
    rw [hok, he]
    rfl

theorem C3_witness :
    parse_ocr (fun _ => "ocr{x}") "t" = .error "json.decoder.JSONDecodeError" :=
  (C3_malformed_json_aborts (fun _ => "ocr{x}") "t" "{x}" rfl rfl).1

/-! ## Claim C4 -/

/-- C4: the claim says an undecodable input yields `found=false` in both
geometric stages with no escaping exception.  On the same undecodable
local file, `extract_headshot` indeed returns `False` (face.py checks
`img is None`), but `extract_paper` raises `AttributeError` (paper.py has
no such check and dereferences `img.shape` on `None`), so the exception
escapes the paper stage and aborts the run. -/
theorem C4_decode_failure_divergence :
    extract_headshot envC4 fsC4 "/tmp/in.jpg" "/tmp/out.jpg" = (false, fsC4)
    ∧ extract_paper envC4 fsC4 "/tmp/in.jpg" "/tmp/p.jpg"
        = .error "AttributeError: NoneType has no attribute shape" :=
  ⟨rfl, rfl⟩

/-! ## Claim C5 -/

/-- C5, counterexample: for the detected box `(10,10,20,15)` in a `100×80`
image the code pads by `int(0.30*5) = 1` and crops `(9,9,21,16)`, while
the formula of the claim, `pad = round(0.30*5) = 2`, demands `(8,8,22,17)`; the
output of the headshot extractor therefore differs from the claimed bounds. -/
theorem C5_counterexample_round_vs_trunc :
    extractHeadshotImg envC5 imgA = some (imgA, (9, 9, 21, 16))
    ∧ specCropClaim 100 80 10 10 20 15 = (8, 8, 22, 17)
    ∧ extractHeadshotImg envC5 imgA ≠ some (imgA, specCropClaim 100 80 10 10 20 15) := by
  refine ⟨by with_unfolding_all rfl, by with_unfolding_all rfl, by with_unfolding_all decide⟩

/-- C5, amended: with `pad = int(0.30*(y2-y1))` (truncation, as the code
computes it) instead of `round`, the crop bounds of a detected box lying
inside the image equal the claimed clamped formula. -/
theorem C5_padding_amended (h w : Nat) (x1 y1 x2 y2 : Int)
    (hx1 : 0 ≤ x1) (hx12 : x1 ≤ x2) (hx2 : x2 ≤ (w : Int))
    (hy1 : 0 ≤ y1) (hy12 : y1 ≤ y2) (hy2 : y2 ≤ (h : Int)) :
    cropBounds h w x1 y1 x2 y2 = specCropAmended h w x1 y1 x2 y2 := by
  have hd : (0 : Int) ≤ y2 - y1 := by omega
  have hpad := padOf_nonneg hd
  have hcast : ((y2 : ℚ) - (y1 : ℚ)) = (((y2 - y1 : ℤ)) : ℚ) := by
    push_cast
    ring
  simp only [cropBounds, specCropAmended, hcast, truncQ_mul_three_tenths hd]
  simp only [Prod.mk.injEq]
  refine ⟨?_, ?_, ?_, ?_⟩ <;> omega

theorem C5_witness :
    cropBounds 100 80 10 10 20 15 = specCropAmended 100 80 10 10 20 15
    ∧ cropBounds 100 80 10 10 20 15 = (9, 9, 21, 16) :=
  ⟨C5_padding_amended 100 80 10 10 20 15 (by decide) (by decide) (by decide)
    (by decide) (by decide) (by decide), by decide⟩

/-! ## Claim C6 -/

/-- C6: in the headshot extractor, a selected face with eye angle of
absolute value at most 2 degrees gets no rotation and the crop is the
padded, clamped original detection box; above 2 degrees the image is
rotated (by the rotation capability) about the bounding-box centre of the face
by that angle, detection is re-run on the rotated image with the largest
face re-selected, and an empty re-detection falls back to the
pre-rotation face geometry. -/
theorem C6_deskew_branching (env : Env) (img : Img) (f : Face) (rest : List Face)
    (hdet : env.detect img = f :: rest) :
    ∃ best, pyMax faceArea (env.detect img) = some best
      ∧ (|best.angle| ≤ 2 →
          extractHeadshotImg env img
            = some (img, cropBounds img.h img.w
                (truncQ best.x1) (truncQ best.y1) (truncQ best.x2) (truncQ best.y2)))
      ∧ (2 < |best.angle| →
          env.detect (env.rotate img best.angle (faceCenter best)) = [] →
          extractHeadshotImg env img
            = some (env.rotate img best.angle (faceCenter best),
                cropBounds (env.rotate img best.angle (faceCenter best)).h
                  (env.rotate img best.angle (faceCenter best)).w
                  (truncQ best.x1) (truncQ best.y1) (truncQ best.x2) (truncQ best.y2)))
      ∧ (2 < |best.angle| →
          ∀ g rest2, env.detect (env.rotate img best.angle (faceCenter best)) = g :: rest2 →
          ∃ best2, pyMax faceArea (g :: rest2) = some best2
            ∧ extractHeadshotImg env img
              = some (env.rotate img best.angle (faceCenter best),
                  cropBounds (env.rotate img best.angle (faceCenter best)).h
                    (env.rotate img best.angle (faceCenter best)).w
                    (truncQ best2.x1) (truncQ best2.y1) (truncQ best2.x2) (truncQ best2.y2))) := by
  refine ⟨rest.foldl (pyStep faceArea) f, by rw [hdet]; rfl, ?_, ?_, ?_⟩
  · intro hang
    have hnot : ¬ (2 < |(rest.foldl (pyStep faceArea) f).angle|) := not_lt.mpr hang
    simp only [extractHeadshotImg, hdet, pyMax]
    rw [if_neg hnot]
  · intro hang hdet2
    simp only [extractHeadshotImg, hdet, pyMax]
    rw [if_pos hang, hdet2]
  · intro hang g rest2 hdet2
    refine ⟨rest2.foldl (pyStep faceArea) g, rfl, ?_⟩
    simp only [extractHeadshotImg, hdet, pyMax]
    rw [if_pos hang, hdet2]

theorem C6_witness :
    ∃ best, pyMax faceArea (envC5.detect imgA) = some best
      ∧ (|best.angle| ≤ 2 →
          extractHeadshotImg envC5 imgA
            = some (imgA, cropBounds imgA.h imgA.w
                (truncQ best.x1) (truncQ best.y1) (truncQ best.x2) (truncQ best.y2)))
      ∧ (2 < |best.angle| →
          envC5.detect (envC5.rotate imgA best.angle (faceCenter best)) = [] →
          extractHeadshotImg envC5 imgA
            = some (envC5.rotate imgA best.angle (faceCenter best),
                cropBounds (envC5.rotate imgA best.angle (faceCenter best)).h
                  (envC5.rotate imgA best.angle (faceCenter best)).w
                  (truncQ best.x1) (truncQ best.y1) (truncQ best.x2) (truncQ best.y2)))
      ∧ (2 < |best.angle| →
          ∀ g rest2, envC5.detect (envC5.rotate imgA best.angle (faceCenter best)) = g :: rest2 →
          ∃ best2, pyMax faceArea (g :: rest2) = some best2
            ∧ extractHeadshotImg envC5 imgA
              = some (envC5.rotate imgA best.angle (faceCenter best),
                  cropBounds (envC5.rotate imgA best.angle (faceCenter best)).h
                    (envC5.rotate imgA best.angle (faceCenter best)).w
                    (truncQ best2.x1) (truncQ best2.y1) (truncQ best2.x2) (truncQ best2.y2))) :=
  C6_deskew_branching envC5 imgA faceA [] rfl

/-! ## Claim C7 -/

/-- C7: with at least two detections, the headshot extractor selects the
face of maximal bounding-box area, ties broken in favour of the earliest
detection (strictly smaller areas before the winner, no larger area
anywhere), and the returned crop is derived from that face: directly as
its padded clamped box when its angle is within 2 degrees, or through the
rotation centred on its box otherwise. -/
theorem C7_largest_face_first_tie (env : Env) (img : Img) (f g : Face) (rest : List Face)
    (hdet : env.detect img = f :: g :: rest) :
    ∃ best, pyMax faceArea (env.detect img) = some best
      ∧ (∃ l₁ l₂, env.detect img = l₁ ++ best :: l₂
          ∧ (∀ a ∈ l₁, faceArea a < faceArea best)
          ∧ (∀ a ∈ l₂, faceArea a ≤ faceArea best))
      ∧ (∀ a ∈ env.detect img, faceArea a ≤ faceArea best)
      ∧ (|best.angle| ≤ 2 →
          extractHeadshotImg env img
            = some (img, cropBounds img.h img.w
                (truncQ best.x1) (truncQ best.y1) (truncQ best.x2) (truncQ best.y2)))
      ∧ (2 < |best.angle| →
          ∃ r, extractHeadshotImg env img
            = some (env.rotate img best.angle (faceCenter best), r)) := by
  obtain ⟨l₁, l₂, heq, hlt, hle⟩ := pyMax_decomp faceArea (g :: rest) f
  refine ⟨(g :: rest).foldl (pyStep faceArea) f, by rw [hdet]; rfl,
    ⟨l₁, l₂, by rw [hdet]; exact heq, hlt, hle⟩, ?_, ?_, ?_⟩
  · rw [hdet]
    exact decomp_max faceArea heq hlt hle
  · intro hang
    have hnot : ¬ (2 < |((g :: rest).foldl (pyStep faceArea) f).angle|) := not_lt.mpr hang
    simp only [extractHeadshotImg, hdet, pyMax]
    rw [if_neg hnot]
  · intro hang
    cases hdet2 : env.detect (env.rotate img ((g :: rest).foldl (pyStep faceArea) f).angle
        (faceCenter ((g :: rest).foldl (pyStep faceArea) f))) with
    | nil =>
      have hres : extractHeadshotImg env img
          = some (env.rotate img ((g :: rest).foldl (pyStep faceArea) f).angle
                (faceCenter ((g :: rest).foldl (pyStep faceArea) f)),
              cropBounds
                (env.rotate img ((g :: rest).foldl (pyStep faceArea) f).angle
                  (faceCenter ((g :: rest).foldl (pyStep faceArea) f))).h
                (env.rotate img ((g :: rest).foldl (pyStep faceArea) f).angle
                  (faceCenter ((g :: rest).foldl (pyStep faceArea) f))).w
                (truncQ ((g :: rest).foldl (pyStep faceArea) f).x1)
                (truncQ ((g :: rest).foldl (pyStep faceArea) f).y1)
                (truncQ ((g :: rest).foldl (pyStep faceArea) f).x2)
                (truncQ ((g :: rest).foldl (pyStep faceArea) f).y2)) := by
        simp only [extractHeadshotImg, hdet, pyMax]
        rw [if_pos hang, hdet2]
      exact ⟨_, hres⟩
    | cons g2 rest2 =>
      have hres : extractHeadshotImg env img
          = some (env.rotate img ((g :: rest).foldl (pyStep faceArea) f).angle
                (faceCenter ((g :: rest).foldl (pyStep faceArea) f)),
              cropBounds
                (env.rotate img ((g :: rest).foldl (pyStep faceArea) f).angle
                  (faceCenter ((g :: rest).foldl (pyStep faceArea) f))).h
                (env.rotate img ((g :: rest).foldl (pyStep faceArea) f).angle
                  (faceCenter ((g :: rest).foldl (pyStep faceArea) f))).w
                (truncQ (rest2.foldl (pyStep faceArea) g2).x1)
                (truncQ (rest2.foldl (pyStep faceArea) g2).y1)
                (truncQ (rest2.foldl (pyStep faceArea) g2).x2)
                (truncQ (rest2.foldl (pyStep faceArea) g2).y2)) := by
        simp only [extractHeadshotImg, hdet, pyMax]
        rw [if_pos hang, hdet2]
      exact ⟨_, hres⟩

theorem C7_witness :
    ∃ best, pyMax faceArea (envC7.detect imgA) = some best
      ∧ (∃ l₁ l₂, envC7.detect imgA = l₁ ++ best :: l₂
          ∧ (∀ a ∈ l₁, faceArea a < faceArea best)
          ∧ (∀ a ∈ l₂, faceArea a ≤ faceArea best))
      ∧ (∀ a ∈ envC7.detect imgA, faceArea a ≤ faceArea best)
      ∧ (|best.angle| ≤ 2 →
          extractHeadshotImg envC7 imgA
            = some (imgA, cropBounds imgA.h imgA.w
                (truncQ best.x1) (truncQ best.y1) (truncQ best.x2) (truncQ best.y2)))
      ∧ (2 < |best.angle| →
          ∃ r, extractHeadshotImg envC7 imgA
            = some (envC7.rotate imgA best.angle (faceCenter best), r)) :=
  C7_largest_face_first_tie envC7 imgA faceA faceB [] rfl

/-! ## Claim C8 -/

theorem attachCleanup_uploads (r : Except String PipeResult) (s : St) (ps : List String) :
    (attachCleanup r s ps).uploads = s.uploads := by
  unfold attachCleanup
  rcases h : cleanup s.fs ps with e | ⟨fs', rem⟩ <;> simp

theorem attachCleanup_result (r : Except String PipeResult) (s : St) (ps : List String) :
    (attachCleanup r s ps).result = r.mapError (fun e => ((500 : Nat), e)) := by
  unfold attachCleanup
  rcases h : cleanup s.fs ps with e | ⟨fs', rem⟩ <;> simp

/-- In a run whose download decodes, whose headshot stage succeeds, and
whose paper-region colour mask has no contours, the headshot is uploaded
before the paper stage and the body then raises inside `extract_ocr`
(the paper file was never written). -/
theorem pipelineBody_headshot_paper_miss (env : Env) (fname : String) (raw : Bytes)
    (img img2 : Img) (crop2 : Int × Int × Int × Int)
    (hstore : env.storage ("raw_images/" ++ fname) = some raw)
    (hdec : env.decodeImg raw = some img)
    (hhs : extractHeadshotImg env img = some (img2, crop2))
    (hcon : env.contours (paperRegion img (env.detect img)) = []) :
    ("headshots/" ++ fname) ∈ (pipelineBody env fname).2.uploads
    ∧ (pipelineBody env fname).1 = .error "FileNotFoundError: paper image missing" := by
  have hOI := tmp_path_ne env.uid "_headshot.jpg" ".jpg" (by decide)
  have hRI := tmp_path_ne env.uid "_headshot_rembg.png" ".jpg" (by decide)
  have hPI := tmp_path_ne env.uid "_paper.jpg" ".jpg" (by decide)
  have hPO := tmp_path_ne env.uid "_paper.jpg" "_headshot.jpg" (by decide)
  have hPR := tmp_path_ne env.uid "_paper.jpg" "_headshot_rembg.png" (by decide)
  have hneOI : localOutput env.uid ≠ localInput env.uid := by
    simpa [localOutput, localInput] using hOI
  have hneRI : localRembg env.uid ≠ localInput env.uid := by
    simpa [localRembg, localInput] using hRI
  have hnePI : localPaper env.uid ≠ localInput env.uid := by
    simpa [localPaper, localInput] using hPI
  have hnePO : localPaper env.uid ≠ localOutput env.uid := by
    simpa [localPaper, localOutput] using hPO
  have hnePR : localPaper env.uid ≠ localRembg env.uid := by
    simpa [localPaper, localRembg] using hPR
  have hh : extract_headshot env (fsWrite [] (localInput env.uid) raw)
      (localInput env.uid) (localOutput env.uid)
      = (true, fsWrite (fsWrite [] (localInput env.uid) raw) (localOutput env.uid)
          (env.headshotBytes img2 crop2)) := by
    simp only [extract_headshot, imread, fsRead_fsWrite_self, Option.some_bind, hdec, hhs]
  have hrdIn2 : fsRead (fsWrite (fsWrite [] (localInput env.uid) raw) (localOutput env.uid)
      (env.headshotBytes img2 crop2)) (localInput env.uid) = some raw := by
    rw [fsRead_fsWrite_ne _ _ _ _ (Ne.symm hneOI)]
    exact fsRead_fsWrite_self _ _ _
  have hrdOut2 : fsRead (fsWrite (fsWrite [] (localInput env.uid) raw) (localOutput env.uid)
      (env.headshotBytes img2 crop2)) (localOutput env.uid)
      = some (env.headshotBytes img2 crop2) := fsRead_fsWrite_self _ _ _
  cases hrb : env.rembg (env.headshotBytes img2 crop2) with
  | none =>
    have hr : remove_background env
        (fsWrite (fsWrite [] (localInput env.uid) raw) (localOutput env.uid)
          (env.headshotBytes img2 crop2))
        (localOutput env.uid) (localRembg env.uid)
        = (false, fsWrite (fsWrite [] (localInput env.uid) raw) (localOutput env.uid)
            (env.headshotBytes img2 crop2)) := by
      simp only [remove_background, hrdOut2, hrb]
    have hpp : extract_paper env
        (fsWrite (fsWrite [] (localInput env.uid) raw) (localOutput env.uid)
          (env.headshotBytes img2 crop2))
        (localInput env.uid) (localPaper env.uid)
        = .ok (false, fsWrite (fsWrite [] (localInput env.uid) raw) (localOutput env.uid)
            (env.headshotBytes img2 crop2)) := by
      simp only [extract_paper, imread, hrdIn2, Option.some_bind, hdec,
        extractPaperCenterColor, hcon, pyMax]
    have hoc : extract_ocr env
        (fsWrite (fsWrite [] (localInput env.uid) raw) (localOutput env.uid)
          (env.headshotBytes img2 crop2)) (localPaper env.uid)
        = .error "FileNotFoundError: paper image missing" := by
      have hnone : fsRead (fsWrite (fsWrite [] (localInput env.uid) raw) (localOutput env.uid)
          (env.headshotBytes img2 crop2)) (localPaper env.uid) = none := by
        rw [fsRead_fsWrite_ne _ _ _ _ hnePO, fsRead_fsWrite_ne _ _ _ _ hnePI]
        rfl
      simp only [extract_ocr, hnone]
    simp [pipelineBody, hstore, hh, hr, hpp, hoc, mark, upload, List.mem_cons]
  | some rbb =>
    have hr : remove_background env
        (fsWrite (fsWrite [] (localInput env.uid) raw) (localOutput env.uid)
          (env.headshotBytes img2 crop2))
        (localOutput env.uid) (localRembg env.uid)
        = (true, fsWrite (fsWrite (fsWrite [] (localInput env.uid) raw) (localOutput env.uid)
            (env.headshotBytes img2 crop2)) (localRembg env.uid) rbb) := by
      simp only [remove_background, hrdOut2, hrb]
    have hrdIn3 : fsRead (fsWrite (fsWrite (fsWrite [] (localInput env.uid) raw)
        (localOutput env.uid) (env.headshotBytes img2 crop2)) (localRembg env.uid) rbb)
        (localInput env.uid) = some raw := by
      rw [fsRead_fsWrite_ne _ _ _ _ (Ne.symm hneRI)]
      exact hrdIn2
    have hpp : extract_paper env
        (fsWrite (fsWrite (fsWrite [] (localInput env.uid) raw) (localOutput env.uid)
          (env.headshotBytes img2 crop2)) (localRembg env.uid) rbb)
        (localInput env.uid) (localPaper env.uid)
        = .ok (false, fsWrite (fsWrite (fsWrite [] (localInput env.uid) raw)
            (localOutput env.uid) (env.headshotBytes img2 crop2)) (localRembg env.uid) rbb) := by
      simp only [extract_paper, imread, hrdIn3, Option.some_bind, hdec,
        extractPaperCenterColor, hcon, pyMax]
    have hoc : extract_ocr env
        (fsWrite (fsWrite (fsWrite [] (localInput env.uid) raw) (localOutput env.uid)
          (env.headshotBytes img2 crop2)) (localRembg env.uid) rbb) (localPaper env.uid)
        = .error "FileNotFoundError: paper image missing" := by
      have hnone : fsRead (fsWrite (fsWrite (fsWrite [] (localInput env.uid) raw)
          (localOutput env.uid) (env.headshotBytes img2 crop2)) (localRembg env.uid) rbb)
          (localPaper env.uid) = none := by
        rw [fsRead_fsWrite_ne _ _ _ _ hnePR, fsRead_fsWrite_ne _ _ _ _ hnePO,
          fsRead_fsWrite_ne _ _ _ _ hnePI]
        rfl
      simp only [extract_ocr, hnone]
    simp [pipelineBody, hstore, hh, hr, hpp, hoc, mark, upload, List.mem_cons]

/-- C8, counterexample: in a run that finds and uploads a headshot but
whose paper-region mask has zero contours, the run does not produce a
result carrying the headshot outcome — it aborts with an HTTP 500 at the
OCR stage — even though the headshot artifact was already uploaded. -/
theorem C8_counterexample_run_aborts :
    (pipelineRun envC8 "a.jpg").uploads = ["headshots/a.jpg"]
    ∧ (pipelineRun envC8 "a.jpg").result
        = .error (500, "FileNotFoundError: paper image missing") :=
  ⟨by with_unfolding_all rfl, by with_unfolding_all rfl⟩

/-- C8, amended: each external contour is scored as its area minus ten
times the absolute horizontal offset of its bounding-rectangle centre from
the horizontal centre of the search region, the first highest-scoring contour
is selected, and zero contours make the paper stage return not-found; a
headshot found independently has by then already been extracted and
uploaded, but the run itself subsequently aborts at the OCR stage instead
of returning a result object. -/
theorem C8_contour_scoring_amended :
    (∀ (env : Env) (img : Img) (c : Contour) (cs : List Contour),
      env.contours (paperRegion img (env.detect img)) = c :: cs →
      ∃ best, extractPaperCenterColor env img
          = some (paperRegion img (env.detect img), best)
        ∧ ∃ l₁ l₂, c :: cs = l₁ ++ best :: l₂
            ∧ (∀ a ∈ l₁, contourScore (paperRegion img (env.detect img)).cw a
                < contourScore (paperRegion img (env.detect img)).cw best)
            ∧ (∀ a ∈ l₂, contourScore (paperRegion img (env.detect img)).cw a
                ≤ contourScore (paperRegion img (env.detect img)).cw best))
    ∧ (∀ (env : Env) (img : Img),
        env.contours (paperRegion img (env.detect img)) = [] →
        extractPaperCenterColor env img = none)
    ∧ (∀ (env : Env) (fname : String) (raw : Bytes) (img img2 : Img)
        (crop2 : Int × Int × Int × Int),
        env.storage ("raw_images/" ++ fname) = some raw →
        env.decodeImg raw = some img →
        extractHeadshotImg env img = some (img2, crop2) →
        env.contours (paperRegion img (env.detect img)) = [] →
        ("headshots/" ++ fname) ∈ (pipelineRun env fname).uploads
        ∧ (pipelineRun env fname).result
            = .error (500, "FileNotFoundError: paper image missing")) := by
  refine ⟨?_, ?_, ?_⟩
  · intro env img c cs hcon
    refine ⟨cs.foldl (pyStep (contourScore (paperRegion img (env.detect img)).cw)) c, ?_, ?_⟩
    · simp only [extractPaperCenterColor, hcon, pyMax, Option.map_some]
    · exact pyMax_decomp (contourScore (paperRegion img (env.detect img)).cw) cs c
  · intro env img hcon
    simp only [extractPaperCenterColor, hcon, pyMax, Option.map_none]
  · intro env fname raw img img2 crop2 hstore hdec hhs hcon
    obtain ⟨hmem, herr⟩ :=
      pipelineBody_headshot_paper_miss env fname raw img img2 crop2 hstore hdec hhs hcon
    constructor
    · rw [pipelineRun, attachCleanup_uploads]
      exact hmem
    · rw [pipelineRun, attachCleanup_result, herr]
      rfl

theorem C8_witness :
    ("headshots/a.jpg" : String) ∈ (pipelineRun envC8 "a.jpg").uploads
    ∧ (pipelineRun envC8 "a.jpg").result
        = .error (500, "FileNotFoundError: paper image missing") :=
  C8_contour_scoring_amended.2.2 envC8 "a.jpg" "RAW" imgA imgA (9, 9, 21, 16)
    rfl rfl (by with_unfolding_all rfl) (by with_unfolding_all rfl)

/-! ## Claim C9 -/

/-- C9: when the decoded language-model output contains no brace-delimited
span, `parse_ocr` returns the raw decoded text as the degraded fallback
and raises nothing. -/
theorem C9_no_brace_span_fallback (llm : String → String) (text : String)
    (h : braceSpanStr (llm (promptOf text)) = none) :
    parse_ocr llm text = .ok (.raw (llm (promptOf text))) := by
  simp [parse_ocr, h]

theorem C9_witness :
    parse_ocr envC9llm "t" = .ok (.raw "name none; no json here") :=
  C9_no_brace_span_fallback envC9llm "t" rfl

/-! ## Claim C10 -/

theorem endswith_of_append (s suf : String) : endswith (s ++ suf) suf = true := by
  simp only [endswith, String.data_append]
  exact List.isSuffixOf_iff_suffix.mpr (List.suffix_append _ _)

theorem endswith_getLast (s suf : String) (hsuf : suf.data ≠ [])
    (h : endswith s suf = true) : s.data.getLast? = suf.data.getLast? := by
  obtain ⟨t, ht⟩ := List.isSuffixOf_iff_suffix.mp h
  rw [← ht]
  exact List.getLast?_append_of_ne_nil t hsuf

theorem endswith_webp_excludes (s : String) (h : endswith s ".webp" = true) :
    endswith s ".jpg" = false ∧ endswith s ".png" = false ∧ endswith s ".jpeg" = false := by
  have hw := endswith_getLast s ".webp" (by decide) h
  refine ⟨?_, ?_, ?_⟩ <;>
  · cases hb : endswith s _ with
    | false => rfl
    | true =>
      have hx := endswith_getLast s _ (by decide) hb
      rw [hw] at hx
      simp at hx

/-- C10: a job key not ending in `.jpg`, `.png` or `.jpeg` is rejected by
the `/extract` endpoint with a 400 before the pipeline runs; `.webp` is in
the upload endpoint allow-list `ALLOWED_EXT`, so an uploaded `.webp` image gets a
job key ending in `.webp`, which `/extract` always rejects — such keys
can never be extracted. -/
theorem C10_webp_never_extracted :
    (∀ (env : Env) (fname : String),
      endswith fname ".jpg" = false → endswith fname ".png" = false →
      endswith fname ".jpeg" = false →
      extractEndpoint env fname = (.error ((400 : Nat), "Invalid image format"), none))
    ∧ ".webp" ∈ ALLOWED_EXT
    ∧ (∀ (env : Env) (origName : String) (content : Bytes),
        pyLower (splitextExt origName) = ".webp" →
        upload_image_handler env origName content = .ok (env.hashHex content ++ ".webp")
        ∧ endswith (env.hashHex content ++ ".webp") ".webp" = true
        ∧ extractEndpoint env (env.hashHex content ++ ".webp")
            = (.error ((400 : Nat), "Invalid image format"), none)) := by
  have hrej : ∀ (env : Env) (fname : String),
      endswith fname ".jpg" = false → endswith fname ".png" = false →
      endswith fname ".jpeg" = false →
      extractEndpoint env fname = (.error ((400 : Nat), "Invalid image format"), none) := by
    intro env fname h1 h2 h3
    simp [extractEndpoint, h1, h2, h3]
  refine ⟨hrej, by decide, ?_⟩
  intro env origName content hext
  have hkey : endswith (env.hashHex content ++ ".webp") ".webp" = true :=
    endswith_of_append _ _
  obtain ⟨e1, e2, e3⟩ := endswith_webp_excludes _ hkey
  refine ⟨?_, hkey, hrej env _ e1 e2 e3⟩
  simp [upload_image_handler, hext, ALLOWED_EXT]

theorem C10_witness :
    extractEndpoint baseEnv "photo.webp"
        = (.error ((400 : Nat), "Invalid image format"), none)
    ∧ upload_image_handler baseEnv "photo.webp" "c" = .ok "abc123.webp"
    ∧ extractEndpoint baseEnv "abc123.webp"
        = (.error ((400 : Nat), "Invalid image format"), none) :=
  ⟨C10_webp_never_extracted.1 baseEnv "photo.webp" rfl rfl rfl,
   (C10_webp_never_extracted.2.2 baseEnv "photo.webp" "c" (by with_unfolding_all rfl)).1,
   (C10_webp_never_extracted.2.2 baseEnv "photo.webp" "c" (by with_unfolding_all rfl)).2.2⟩

end BaptismCert
